import Mathlib

/-!
Verification of the ingestion / filtering / presentation pipeline of
`src/Chicago_sales_app.py` (Chips-Heatmap).

Shallow embedding conventions:
* Numeric spreadsheet cells (latitude, longitude, sales) and timestamps are
  modelled as rationals (`ℚ`); a value that failed to parse is the missing
  sentinel `none` of an `Option ℚ` (pandas `NaN`/`NaT` from
  `to_numeric/ to_datetime` with `errors="coerce"`).
* The concrete text-to-number parsers (`pd.to_numeric`, `pd.to_datetime`)
  are not re-implemented: definitions that need them take the parser as an
  explicit function argument `String → Option ℚ`, and theorems quantify over
  it.  All claims here depend only on whether a cell parses, never on the
  numeral syntax itself.
* A raw spreadsheet row is the header-keyed dictionary the script builds by
  zipping the header with the row (`pd.DataFrame(vals[1:], columns=vals[0])`,
  lookup by column name): we model it as a fixed-shape structure of the seven
  string cells.
* pandas comparisons against a missing value (`NaN >= x`, `NaT >= x`) are
  `False`; boolean-mask filters therefore drop rows whose compared cell is
  missing.  The embedded predicates return `false` on `none` accordingly.
-/

/-- One raw spreadsheet data row, keyed by the header
`Name, Latitude, Longitude, Sales, Category, AddedBy, Timestamp`
(the script accesses the cells by column name). All cells are text. -/
structure RawRow where
  name : String
  latitude : String
  longitude : String
  sales : String
  category : String
  addedBy : String
  timestamp : String
deriving DecidableEq, Repr

/-- One normalized sales-location record, as produced by `load_data`:
latitude/longitude are guaranteed numeric, sales and timestamp keep a
missing sentinel when their cell did not parse. -/
structure Record where
  name : String
  latitude : ℚ
  longitude : ℚ
  sales : Option ℚ
  category : String
  addedBy : String
  recordedAt : Option ℚ
deriving DecidableEq, Repr

/-- The record built from a raw row once its latitude and longitude are known
to parse (`getD 0` is never exercised on rows `load_data` keeps: the
surrounding filter has already checked `isSome`).  `Sales` is
`pd.to_numeric(..., errors="coerce")`: parse failure gives the sentinel.
`Timestamp` is parsed only when the column is present (`hasTs`). -/
def mkRecord (pnum pts : String → Option ℚ) (hasTs : Bool) (row : RawRow) :
    Record :=
  { name := row.name
    latitude := (pnum row.latitude).getD 0
    longitude := (pnum row.longitude).getD 0
    sales := pnum row.sales
    category := row.category
    addedBy := row.addedBy
    recordedAt := if hasTs then pts row.timestamp else none }

/-- `load_data` (src lines 42–53) on the data rows (header already split off):
coerce `Sales`, `Latitude`, `Longitude` to numbers and `Timestamp` to a
timestamp (failures become the missing sentinel), then
`dropna(subset=["Latitude","Longitude"])` removes exactly the rows whose
latitude or longitude did not parse. -/
def load_data (pnum pts : String → Option ℚ) (hasTs : Bool)
    (rows : List RawRow) : List Record :=
  rows.filterMap (fun row =>
    match pnum row.latitude, pnum row.longitude with
    | some _, some _ => some (mkRecord pnum pts hasTs row)
    | _, _ => none)

/-- The filter constraints of one rendering pass (sidebar widgets):
selected categories (multiselect), inclusive sales bounds (integer slider),
inclusive date bounds (date input). -/
structure FilterState where
  selectedCats : List String
  salesLo : ℤ
  salesHi : ℤ
  dateStart : ℚ
  dateEnd : ℚ
deriving DecidableEq, Repr

/-- Category mask (src line 104): `df["Category"].isin(selected_categories)`. -/
def categoryPred (cats : List String) (r : Record) : Bool :=
  decide (r.category ∈ cats)

/-- Sales mask (src line 109):
`(df["Sales"] >= sales_range[0]) & (df["Sales"] <= sales_range[1])`.
A missing sales value (`NaN`) compares `False` on both sides, so the row is
dropped. -/
def salesPred (lo hi : ℤ) (r : Record) : Bool :=
  match r.sales with
  | none => false
  | some s => decide ((lo : ℚ) ≤ s) && decide (s ≤ (hi : ℚ))

/-- Date mask (src line 117):
`(df["Timestamp"] >= start_date) & (df["Timestamp"] <= end_date)`.
A missing timestamp (`NaT`) compares `False` on both sides, so the row is
dropped. -/
def datePred (a b : ℚ) (r : Record) : Bool :=
  match r.recordedAt with
  | none => false
  | some t => decide (a ≤ t) && decide (t ≤ b)

/-- The runtime value bound to `date_range` by `st.date_input` (src line 114).
A range `date_input` returns the picked dates as a Python *tuple* (of 0–2
dates) in Streamlit ≥ 1.18 — the version floor this script pins by using
`st.cache_resource`/`st.cache_data` at lines 28 and 42 — never as a Python
list.  The `list` constructor exists so the `isinstance(date_range, list)`
test at line 115 can be stated faithfully over the value's runtime type. -/
inductive DateInputValue where
  | tuple (dates : List ℚ) : DateInputValue
  | list (dates : List ℚ) : DateInputValue
deriving DecidableEq, Repr

/-- The guard at src line 115, `isinstance(date_range, list) and
len(date_range) == 2`, together with the extraction of
`start_date, end_date` at line 116: it passes only for a two-element Python
list. -/
def asTwoDateList : DateInputValue → Option (ℚ × ℚ)
  | DateInputValue.list [a, b] => some (a, b)
  | _ => none

/-- `st.date_input("Filter by Date Range", [min_date, max_date])`
(src line 114): the range picked by the user comes back as a tuple of its two
dates. -/
def dateInputReturn (a b : ℚ) : DateInputValue := DateInputValue.tuple [a, b]

/-- The date-filter stage (src lines 112–117): entered only when some record
of the current set has a valid timestamp (`df["Timestamp"].notna().any()`;
when the `Timestamp` column is absent every `recordedAt` is `none` and the
stage is likewise skipped), and the mask of line 117 is applied only when the
line 115 guard accepts `date_range` as a two-element list.  Because
`st.date_input` returns a tuple, that guard never passes at run time and the
mask is dead code: the stage leaves the set unchanged. -/
def dateFilter (dr : DateInputValue) (l : List Record) : List Record :=
  if l.any (fun r => r.recordedAt.isSome) then
    match asTwoDateList dr with
    | some (a, b) => l.filter (datePred a b)
    | none => l
  else l

/-- The whole filtering-options block (src lines 96–117), which runs only on a
non-empty set: category mask, then sales mask, then the conditional date
stage fed with the tuple the date widget returned. -/
def applyFilters (s : FilterState) (l : List Record) : List Record :=
  if l.isEmpty then l
  else
    dateFilter (dateInputReturn s.dateStart s.dateEnd)
      (((l.filter (categoryPred s.selectedCats)).filter
        (salesPred s.salesLo s.salesHi)))

/-- The non-missing sales values of a record set, in order (pandas numeric
reductions over a column skip `NaN`). -/
def salesVals (l : List Record) : List ℚ :=
  l.filterMap (fun r => r.sales)

/-- Python `int()` on a float: truncation toward zero. -/
def truncInt (q : ℚ) : ℤ :=
  if 0 ≤ q then ⌊q⌋ else ⌈q⌉

/-- Default slider bounds (src line 107):
`int(df["Sales"].min()), int(df["Sales"].max())` — the observed min and max
of the non-missing sales, each truncated toward zero by Python `int()`.
`none` models the state where no record has numeric sales (`int(NaN)`
raises there). -/
def defaultSalesBounds (l : List Record) : Option (ℤ × ℤ) :=
  match salesVals l with
  | [] => none
  | a :: xs => some (truncInt (xs.foldl min a), truncInt (xs.foldl max a))

/-- The fixed five-category color map (src lines 152–158), as an ordered
association list. -/
def fixedCategoryColors : List (String × String) :=
  [("Deli", "blue"), ("Grocery", "green"), ("Hotel", "purple"),
   ("Restaurant", "red"), ("Other", "orange")]

/-- The fallback palette fed to `itertools.cycle` (src line 159). -/
def fallbackPalette : List String :=
  ["cadetblue", "pink", "darkred", "darkblue", "darkgreen", "lightgray",
   "black"]

/-- The color `next(color_cycle)` yields on its `k`-th call (0-based):
`itertools.cycle` walks the palette round-robin. -/
def cycleColor (k : ℕ) : String :=
  fallbackPalette.getD (k % fallbackPalette.length) "black"

/-- The distinct values of a column in first-encounter order: pandas
`Series.unique()` lists each value once, ordered by first occurrence. -/
def firstOccurrences : List String → List String
  | [] => []
  | c :: cs => c :: (firstOccurrences cs).filter (fun d => d ≠ c)

/-- The color-assignment loop (src lines 160–162): walk the distinct
categories of the current set in first-encounter order and give each one not
already in the map the next color of the cycle.  `k` counts the calls to
`next(color_cycle)` made so far. -/
def assignColors (m : List (String × String)) (k : ℕ) :
    List String → List (String × String)
  | [] => m
  | c :: cs =>
    if (m.lookup c).isSome then assignColors m k cs
    else assignColors (m ++ [(c, cycleColor k)]) (k + 1) cs

/-- The finished `category_colors` map for a record set: the fixed map
extended over `df["Category"].dropna().unique()` (categories are text cells,
never `NaN`; `dropna` is the identity here). -/
def categoryColorMap (l : List Record) : List (String × String) :=
  assignColors fixedCategoryColors 0 (firstOccurrences (l.map Record.category))

/-- One `folium.CircleMarker` draw instruction (src lines 178–185): position,
radius, fill color. -/
structure Marker where
  lat : ℚ
  lng : ℚ
  radius : ℚ
  color : String
deriving DecidableEq, Repr

/-- `df["Sales"].max()`: maximum over the non-missing sales, `NaN` (here
`none`) when there is none. -/
def maxSalesVal (l : List Record) : Option ℚ :=
  match salesVals l with
  | [] => none
  | a :: xs => some (xs.foldl max a)

/-- Marker radius (src line 180): `max(4, r["Sales"] / df["Sales"].max() * 15)`.
When the record's sales or the column max is missing the division yields
`NaN` and Python's `max(4, nan)` returns `4`.  The rational embedding puts
`s / 0 = 0`; Python instead yields `-inf` or `nan` there (every sales value
is ≤ the max, hence ≤ 0 when the max is 0), and `max(4, ·)` again returns
`4` — the two semantics give the same radius on every reachable input
(`marker_radius_le_max` below proves the reachability bound). -/
def markerRadius (m : Option ℚ) (r : Record) : ℚ :=
  match r.sales, m with
  | some s, some mx => max 4 (s / mx * 15)
  | _, _ => 4

/-- The marker rendering loop (src lines 167–185): one circle marker per
record of the (filtered) set, guarded by `if not df.empty` — an empty set
draws nothing. -/
def renderMarkers (cmap : List (String × String)) (l : List Record) :
    List Marker :=
  l.map (fun r =>
    { lat := r.latitude
      lng := r.longitude
      radius := markerRadius (maxSalesVal l) r
      color := (cmap.lookup r.category).getD "gray" })

/-- One row of the submitted append (src lines 55–56), with the coordinate
cells still raw text (`float(...)` happens inside `append_row`). -/
structure AppendCall where
  name : String
  lat : String
  lng : String
  sales : ℚ
  category : String
  addedBy : String
deriving DecidableEq, Repr

/-- The submit handler (src lines 75–85): `if not name or not lat or not lng
or sales <= 0` the submission is rejected with a local error (`none`);
otherwise `append_row` is invoked.  Python `not s` on a string is the
emptiness test. -/
def handleSubmit (name lat lng : String) (sales : ℚ)
    (category addedBy : String) : Option AppendCall :=
  if name = "" || lat = "" || lng = "" || decide (sales ≤ 0) then none
  else some ⟨name, lat, lng, sales, category, addedBy⟩

/-- One row of the category summary (src lines 233–236): category, count of
(non-null) names, sum of sales.  Every `Name` cell is a (possibly empty)
string, so `count` is the group size; pandas `sum` skips missing sales. -/
structure SummaryRow where
  category : String
  locations : ℕ
  totalSales : ℚ
deriving DecidableEq, Repr

/-- `df.groupby("Category").agg(Locations=("Name","count"),
Total_Sales=("Sales","sum"))`: one row per distinct category of the set.
(pandas orders the rows by sorted key; row order is irrelevant to the
aggregation sums proved here, so the rows are listed in first-encounter
order.) -/
def summary (l : List Record) : List SummaryRow :=
  (firstOccurrences (l.map Record.category)).map (fun c =>
    let g := l.filter (fun r => r.category = c)
    { category := c
      locations := g.length
      totalSales := (salesVals g).sum })

/-! ### Example records used in concrete witnesses and counterexamples -/

/-- A fully populated record (valid timestamp). -/
def exDeli : Record := ⟨"Deli A", 41, -87, some 100, "Deli", "Alice", some 0⟩

/-- A record whose timestamp cell did not parse. -/
def exNoTs : Record := ⟨"B", 3, 4, some 50, "Grocery", "Bob", none⟩

/-- A record with fractional sales 10.5. -/
def exHalf : Record := ⟨"H", 1, 2, some (21 / 2), "Deli", "", none⟩

/-- A record with zero sales. -/
def exZero : Record := ⟨"Z", 1, 2, some 0, "Other", "", none⟩

/-- A record whose sales cell did not parse. -/
def exNoSales : Record := ⟨"M", 1, 2, none, "Other", "", none⟩

/-- A record in an unseen category. -/
def exBakery : Record := ⟨"Bk", 1, 2, some 10, "Bakery", "", none⟩

/-- A second record in another unseen category. -/
def exCafe : Record := ⟨"Cf", 3, 4, some 20, "Cafe", "", none⟩

/-! ### General helper lemmas -/

theorem dateFilter_sublist (dr : DateInputValue) (l : List Record) :
    List.Sublist (dateFilter dr l) l := by
  unfold dateFilter
  split
  · split
    · exact List.filter_sublist l
    · exact List.Sublist.refl l
  · exact List.Sublist.refl l

/-- With the tuple `st.date_input` actually returns, the line 115 guard fails
and the date stage is the identity on the record set. -/
theorem dateFilter_tuple_id (ds : List ℚ) (l : List Record) :
    dateFilter (DateInputValue.tuple ds) l = l := by
  unfold dateFilter
  split <;> rfl

theorem mem_salesVals_of_mem {l : List Record} {r : Record} {s : ℚ}
    (hr : r ∈ l) (hs : r.sales = some s) : s ∈ salesVals l := by
  exact List.mem_filterMap.mpr ⟨r, hr, hs⟩

theorem foldl_min_le_of_mem {α : Type} [LinearOrder α] :
    ∀ (xs : List α) (a x : α), x ∈ a :: xs → xs.foldl min a ≤ x := by
  intro xs
  induction xs with
  | nil =>
    intro a x hx
    simp only [List.mem_singleton] at hx
    simp [hx]
  | cons b bs ih =>
    intro a x hx
    simp only [List.foldl_cons]
    rcases List.mem_cons.mp hx with h | hx'
    · exact le_trans (ih (min a b) (min a b) (List.mem_cons_self _ _))
        (by simp [h, min_le_left])
    · rcases List.mem_cons.mp hx' with h | h
      · exact le_trans (ih (min a b) (min a b) (List.mem_cons_self _ _))
          (by simp [h, min_le_right])
      · exact ih (min a b) x (List.mem_cons_of_mem _ h)

theorem le_foldl_max_of_mem {α : Type} [LinearOrder α] :
    ∀ (xs : List α) (a x : α), x ∈ a :: xs → x ≤ xs.foldl max a := by
  intro xs
  induction xs with
  | nil =>
    intro a x hx
    simp only [List.mem_singleton] at hx
    simp [hx]
  | cons b bs ih =>
    intro a x hx
    simp only [List.foldl_cons]
    rcases List.mem_cons.mp hx with h | hx'
    · exact le_trans (by simp [h, le_max_left])
        (ih (max a b) (max a b) (List.mem_cons_self _ _))
    · rcases List.mem_cons.mp hx' with h | h
      · exact le_trans (by simp [h, le_max_right])
          (ih (max a b) (max a b) (List.mem_cons_self _ _))
      · exact ih (max a b) x (List.mem_cons_of_mem _ h)

theorem truncInt_cast_le {m : ℚ} {z : ℤ} (h : m ≤ (z : ℚ)) :
    (truncInt m : ℚ) ≤ (z : ℚ) := by
  unfold truncInt
  split
  · exact le_trans (Int.floor_le m) h
  · exact_mod_cast Int.ceil_le.mpr h

theorem le_truncInt_cast {M : ℚ} {z : ℤ} (h : (z : ℚ) ≤ M) :
    (z : ℚ) ≤ (truncInt M : ℚ) := by
  unfold truncInt
  split
  · exact_mod_cast Int.le_floor.mpr h
  · exact le_trans h (Int.le_ceil M)

/-! ### C2 — ingestion drops exactly the rows with unparsable coordinates -/

/-- C2. For every parser pair and every raw-row sequence, `load_data` returns
exactly the records of the rows whose latitude and longitude both parse, in
source order — a row is absent from the result iff its latitude or longitude
is unparsable, and no other row is dropped.  Rows with an unparsable sales or
timestamp cell are retained, carrying the missing sentinel in that field
(second conjunct); the embedding is a total function, so no malformed row
raises an error. -/
theorem load_data_drops_exactly_bad_coords
    (pnum pts : String → Option ℚ) (hasTs : Bool) (rows : List RawRow) :
    load_data pnum pts hasTs rows =
      (rows.filter (fun row =>
        (pnum row.latitude).isSome && (pnum row.longitude).isSome)).map
        (mkRecord pnum pts hasTs) ∧
    ∀ row : RawRow,
      (mkRecord pnum pts hasTs row).sales = pnum row.sales ∧
      (mkRecord pnum pts hasTs row).recordedAt =
        (if hasTs then pts row.timestamp else none) := by
  constructor
  · induction rows with
    | nil => rfl
    | cons row rest ih =>
      simp only [load_data, List.filterMap_cons, List.filter_cons]
      cases hla : pnum row.latitude with
      | none => simpa [load_data, hla] using ih
      | some la =>
        cases hlo : pnum row.longitude with
        | none => simpa [load_data, hla, hlo] using ih
        | some lo => simpa [load_data, hla, hlo] using ih
  · intro row
    exact ⟨rfl, rfl⟩

/-! ### C8 — invalid submissions never reach the Record Source -/

/-- C8. A user submission with an empty required field (name, latitude or
longitude) or non-positive sales is rejected locally: `handleSubmit` returns
`none`, so the Record Source append operation is never invoked for it. -/
theorem invalid_submit_never_appends
    (name lat lng : String) (sales : ℚ) (category addedBy : String)
    (h : name = "" ∨ lat = "" ∨ lng = "" ∨ sales ≤ 0) :
    handleSubmit name lat lng sales category addedBy = none := by
  rcases h with h | h | h | h <;> simp [handleSubmit, h]

/-- Concrete instances of C8: empty name, empty latitude, and zero sales are
all rejected before any append. -/
theorem invalid_submit_never_appends_witness :
    handleSubmit "" "41.88" "-87.62" 5 "Deli" "Alice" = none ∧
    handleSubmit "Deli A" "" "-87.62" 5 "Deli" "Alice" = none ∧
    handleSubmit "Deli A" "41.88" "-87.62" 0 "Deli" "Alice" = none :=
  ⟨invalid_submit_never_appends _ _ _ _ _ _ (Or.inl rfl),
   invalid_submit_never_appends _ _ _ _ _ _ (Or.inr (Or.inl rfl)),
   invalid_submit_never_appends _ _ _ _ _ _
     (Or.inr (Or.inr (Or.inr le_rfl)))⟩

/-! ### C9 — the filtered set is a sublist of the input set -/

/-- C9. For every input record set and every `FilterState`, the output of the
filtering block is a sublist of the input: every output record is an input
record, in input order — filtering never adds or mutates records. -/
theorem applyFilters_sublist (s : FilterState) (l : List Record) :
    List.Sublist (applyFilters s l) l := by
  unfold applyFilters
  split
  · exact List.Sublist.refl l
  · exact List.Sublist.trans
      (dateFilter_sublist (dateInputReturn s.dateStart s.dateEnd) _)
      (List.Sublist.trans (List.filter_sublist _) (List.filter_sublist l))

/-! ### C10 — records with missing sales never survive the sales filter -/

/-- C10. A record whose sales cell failed to parse (missing sentinel) is
removed by the sales-range mask for every choice of bounds — both
comparisons against `NaN` are false — and hence never survives the filtering
block. -/
theorem missing_sales_never_survive
    (lo hi : ℤ) (s : FilterState) (l : List Record) (r : Record)
    (h : r.sales = none) :
    r ∉ l.filter (salesPred lo hi) ∧ r ∉ applyFilters s l := by
  have hpred : ∀ lo' hi' : ℤ, salesPred lo' hi' r = false := by
    intro lo' hi'
    simp [salesPred, h]
  constructor
  · intro hmem
    have := (List.mem_filter.mp hmem).2
    rw [hpred] at this
    exact Bool.false_ne_true this
  · intro hmem
    unfold applyFilters at hmem
    split at hmem
    · next hemp =>
      rw [List.isEmpty_iff.mp hemp] at hmem
      exact List.not_mem_nil r hmem
    · have hmem2 :=
        (dateFilter_sublist (dateInputReturn s.dateStart s.dateEnd) _).subset
          hmem
      have := (List.mem_filter.mp hmem2).2
      rw [hpred] at this
      exact Bool.false_ne_true this

/-- Concrete instance of C10: the record with unparsable sales is dropped by
the sales filter and by the whole filtering block. -/
theorem missing_sales_never_survive_witness :
    exNoSales ∉ [exDeli, exNoSales].filter (salesPred 0 1000) ∧
    exNoSales ∉ applyFilters ⟨["Deli", "Other"], 0, 1000, 0, 10⟩
      [exDeli, exNoSales] :=
  missing_sales_never_survive 0 1000 ⟨["Deli", "Other"], 0, 1000, 0, 10⟩
    [exDeli, exNoSales] exNoSales rfl

/-! ### C1 — missing timestamps and the date filter -/

/-- C1. A record whose `recorded_at` is missing is kept by the date-filter
stage for every choice of start/end bounds.  Although the line 117 mask would
drop `NaT` rows, it sits behind the line 115 guard
`isinstance(date_range, list) and len(date_range) == 2`, and `st.date_input`
returns the picked range as a *tuple* — so the guard never passes, the stage
is the identity on the record set (second conjunct), and in particular every
missing-timestamp record is present in its output. -/
theorem date_filter_keeps_missing_timestamp
    (a b : ℚ) (l : List Record) (r : Record)
    (hr : r ∈ l) (_hmiss : r.recordedAt = none) :
    r ∈ dateFilter (dateInputReturn a b) l ∧
    dateFilter (dateInputReturn a b) l = l := by
  rw [dateInputReturn, dateFilter_tuple_id]
  exact ⟨hr, rfl⟩

/-- Concrete instance of C1: with bounds 0–10 and a validly timestamped
record alongside it, the record without a timestamp is still in the date
stage's output, which equals its input. -/
theorem date_filter_keeps_missing_timestamp_witness :
    exNoTs ∈ dateFilter (dateInputReturn 0 10) [exDeli, exNoTs] ∧
    dateFilter (dateInputReturn 0 10) [exDeli, exNoTs] = [exDeli, exNoTs] :=
  date_filter_keeps_missing_timestamp 0 10 [exDeli, exNoTs] exNoTs
    (by simp) rfl

/-! ### C3 — default sales bounds and the sales predicate -/

/-- Counterexample to C3 as stated: for the set whose only record has sales
10.5, the default bounds are `int(10.5), int(10.5) = (10, 10)` — *not* the
observed min/max — and under them the record fails the sales predicate, so
not every record of the current set survives the default `FilterState`. -/
theorem default_sales_bounds_counterexample :
    exHalf.sales = some (21 / 2) ∧
    defaultSalesBounds [exHalf] = some (10, 10) ∧
    exHalf ∉ [exHalf].filter (salesPred 10 10) := by
  have hfl : ⌊(21 / 2 : ℚ)⌋ = 10 := by norm_num [Int.floor_eq_iff]
  have hp : salesPred 10 10 exHalf = false := by norm_num [salesPred, exHalf]
  refine ⟨rfl, ?_, ?_⟩
  · norm_num [defaultSalesBounds, salesVals, exHalf, truncInt, hfl,
      List.filterMap_cons, List.filterMap_nil, List.foldl]
  · simp [List.filter_cons, hp]

/-- C3 amended. The default slider bounds are the observed min and max of the
non-missing sales *truncated toward zero by Python `int()`*; consequently
every record whose sales value is a non-missing integer satisfies the sales
predicate under the default bounds (records with fractional or missing sales
can fail it, as the counterexample shows). -/
theorem default_sales_bounds_keep_integer_sales
    (l : List Record) (lo hi : ℤ)
    (hb : defaultSalesBounds l = some (lo, hi))
    (r : Record) (hr : r ∈ l) (z : ℤ) (hs : r.sales = some (z : ℚ)) :
    salesPred lo hi r = true := by
  have hmem : (z : ℚ) ∈ salesVals l := mem_salesVals_of_mem hr hs
  rw [defaultSalesBounds] at hb
  rcases hsv : salesVals l with _ | ⟨a, xs⟩
  · rw [hsv] at hb
    exact absurd hb (by simp)
  · rw [hsv] at hb hmem
    have hlo : lo = truncInt (xs.foldl min a) := by
      have := Option.some.inj hb
      exact (Prod.mk.injEq _ _ _ _ ▸ this).1.symm
    have hhi : hi = truncInt (xs.foldl max a) := by
      have := Option.some.inj hb
      exact (Prod.mk.injEq _ _ _ _ ▸ this).2.symm
    have h1 : (lo : ℚ) ≤ (z : ℚ) := by
      rw [hlo]
      exact truncInt_cast_le (foldl_min_le_of_mem xs a _ hmem)
    have h2 : (z : ℚ) ≤ (hi : ℚ) := by
      rw [hhi]
      exact le_truncInt_cast (le_foldl_max_of_mem xs a _ hmem)
    simp [salesPred, hs, h1, h2]

/-- Concrete instance of the amended C3: for a set with integer sales 100 and
50 the default bounds are (50, 100) and the first record passes the sales
predicate. -/
theorem default_sales_bounds_keep_integer_sales_witness :
    salesPred 50 100 exDeli = true :=
  default_sales_bounds_keep_integer_sales [exDeli, exNoTs] 50 100
    (by decide) exDeli (by decide) 100 (by decide)

/-! ### C4 — marker sizing never divides by zero -/

theorem markerRadius_of_max_zero (r : Record) :
    markerRadius (some 0) r = 4 := by
  rcases hs : r.sales with _ | s
  · simp [markerRadius, hs]
  · simp [markerRadius, hs]

theorem markerRadius_of_max_none (r : Record) :
    markerRadius none r = 4 := by
  rcases hs : r.sales with _ | s <;> simp [markerRadius, hs]

/-- Every non-missing sales value of the set is bounded by the column max:
this is the reachability fact under which the rational embedding of the
radius formula (`s / 0 = 0`) agrees with Python float division (`-inf`/`nan`,
both collapsed to the minimum by `max(4, ·)`). -/
theorem maxSalesVal_is_ub (l : List Record) (mx : ℚ)
    (hmx : maxSalesVal l = some mx) (r : Record) (s : ℚ)
    (hr : r ∈ l) (hs : r.sales = some s) : s ≤ mx := by
  have hmem : s ∈ salesVals l := mem_salesVals_of_mem hr hs
  rw [maxSalesVal] at hmx
  rcases hsv : salesVals l with _ | ⟨a, xs⟩
  · rw [hsv] at hmx
    exact absurd hmx (by simp)
  · rw [hsv] at hmx hmem
    have := Option.some.inj hmx
    rw [← this]
    exact le_foldl_max_of_mem xs a s hmem

/-- C4. Marker sizing is division-safe: an empty filtered set renders to the
well-defined empty draw-instruction list, and when the maximum sales over the
current set is zero (or no record has numeric sales, the all-`NaN` column)
every emitted marker carries the fixed minimum radius 4 instead of a
division-by-zero result. -/
theorem marker_sizing_no_div_by_zero
    (cmap : List (String × String)) (l : List Record) :
    renderMarkers cmap [] = [] ∧
    (maxSalesVal l = some 0 →
      (renderMarkers cmap l).map Marker.radius = List.replicate l.length 4) ∧
    (maxSalesVal l = none →
      (renderMarkers cmap l).map Marker.radius = List.replicate l.length 4) := by
  refine ⟨rfl, ?_, ?_⟩
  · intro h
    rw [renderMarkers, List.map_map, h]
    have : ∀ r ∈ l,
        (Marker.radius ∘ fun r' =>
          Marker.mk r'.latitude r'.longitude (markerRadius (some 0) r')
            ((cmap.lookup r'.category).getD "gray")) r = (fun _ => (4 : ℚ)) r :=
      fun r _ => markerRadius_of_max_zero r
    rw [List.map_congr_left this, List.map_const']
  · intro h
    rw [renderMarkers, List.map_map, h]
    have : ∀ r ∈ l,
        (Marker.radius ∘ fun r' =>
          Marker.mk r'.latitude r'.longitude (markerRadius none r')
            ((cmap.lookup r'.category).getD "gray")) r = (fun _ => (4 : ℚ)) r :=
      fun r _ => markerRadius_of_max_none r
    rw [List.map_congr_left this, List.map_const']

/-- Concrete instances of C4: the empty set renders to no markers; a set
whose only sales value is 0 and a set whose sales are all missing each
render with the minimum radius 4. -/
theorem marker_sizing_no_div_by_zero_witness :
    renderMarkers [] ([] : List Record) = [] ∧
    (renderMarkers [] [exZero]).map Marker.radius = List.replicate 1 4 ∧
    (renderMarkers [] [exNoSales]).map Marker.radius = List.replicate 1 4 :=
  ⟨(marker_sizing_no_div_by_zero [] []).1,
   (marker_sizing_no_div_by_zero [] [exZero]).2.1 (by decide),
   (marker_sizing_no_div_by_zero [] [exNoSales]).2.2 (by decide)⟩

/-! ### C7 — the three filter predicates commute -/

theorem filter_swap {α : Type} (p q : α → Bool) (l : List α) :
    (l.filter p).filter q = (l.filter q).filter p := by
  rw [List.filter_filter, List.filter_filter]
  exact List.filter_congr (fun a _ => by cases p a <;> cases q a <;> rfl)

/-- C7. For every record set and every fixed `FilterState`, the category,
sales-range and date-range predicates compose by logical AND: applying the
three masks in any of the six orders yields the same filtered set, equal to a
single filter by the conjunction. -/
theorem filter_predicates_commute (s : FilterState) (l : List Record) :
    (((l.filter (categoryPred s.selectedCats)).filter
        (salesPred s.salesLo s.salesHi)).filter
        (datePred s.dateStart s.dateEnd) =
      ((l.filter (categoryPred s.selectedCats)).filter
        (datePred s.dateStart s.dateEnd)).filter
        (salesPred s.salesLo s.salesHi)) ∧
    (((l.filter (categoryPred s.selectedCats)).filter
        (salesPred s.salesLo s.salesHi)).filter
        (datePred s.dateStart s.dateEnd) =
      ((l.filter (salesPred s.salesLo s.salesHi)).filter
        (categoryPred s.selectedCats)).filter
        (datePred s.dateStart s.dateEnd)) ∧
    (((l.filter (categoryPred s.selectedCats)).filter
        (salesPred s.salesLo s.salesHi)).filter
        (datePred s.dateStart s.dateEnd) =
      ((l.filter (salesPred s.salesLo s.salesHi)).filter
        (datePred s.dateStart s.dateEnd)).filter
        (categoryPred s.selectedCats)) ∧
    (((l.filter (categoryPred s.selectedCats)).filter
        (salesPred s.salesLo s.salesHi)).filter
        (datePred s.dateStart s.dateEnd) =
      ((l.filter (datePred s.dateStart s.dateEnd)).filter
        (categoryPred s.selectedCats)).filter
        (salesPred s.salesLo s.salesHi)) ∧
    (((l.filter (categoryPred s.selectedCats)).filter
        (salesPred s.salesLo s.salesHi)).filter
        (datePred s.dateStart s.dateEnd) =
      ((l.filter (datePred s.dateStart s.dateEnd)).filter
        (salesPred s.salesLo s.salesHi)).filter
        (categoryPred s.selectedCats)) ∧
    (((l.filter (categoryPred s.selectedCats)).filter
        (salesPred s.salesLo s.salesHi)).filter
        (datePred s.dateStart s.dateEnd) =
      l.filter (fun r => categoryPred s.selectedCats r &&
        salesPred s.salesLo s.salesHi r && datePred s.dateStart s.dateEnd r)) := by
  refine ⟨?_, ?_, ?_, ?_, ?_, ?_⟩ <;>
    · simp only [List.filter_filter]
      exact List.filter_congr (fun r _ => by
        cases categoryPred s.selectedCats r <;>
          cases salesPred s.salesLo s.salesHi r <;>
            cases datePred s.dateStart s.dateEnd r <;> rfl)

/-! ### C6 — summary aggregation totals -/

theorem mem_firstOccurrences {xs : List String} {a : String} :
    a ∈ firstOccurrences xs ↔ a ∈ xs := by
  induction xs with
  | nil => simp [firstOccurrences]
  | cons c cs ih =>
    simp only [firstOccurrences, List.mem_cons, List.mem_filter,
      decide_eq_true_eq, ih]
    constructor
    · rintro (h | ⟨h, _⟩)
      · exact Or.inl h
      · exact Or.inr h
    · rintro (h | h)
      · exact Or.inl h
      · by_cases hac : a = c
        · exact Or.inl hac
        · exact Or.inr ⟨h, hac⟩

theorem firstOccurrences_nodup (xs : List String) :
    (firstOccurrences xs).Nodup := by
  induction xs with
  | nil => simp [firstOccurrences]
  | cons c cs ih =>
    refine List.Nodup.cons ?_ (List.Nodup.filter _ ih)
    intro hmem
    have := (List.mem_filter.mp hmem).2
    simp at this

theorem sum_map_filter_add_not {M : Type} [AddCommMonoid M]
    (f : Record → M) (p : Record → Bool) (l : List Record) :
    ((l.filter p).map f).sum + ((l.filter (fun r => !(p r))).map f).sum =
      (l.map f).sum := by
  induction l with
  | nil => simp
  | cons r rest ih =>
    cases hp : p r <;>
      simp only [List.filter_cons, hp, Bool.not_true, Bool.not_false,
        cond_true, cond_false, if_pos, if_neg, List.map_cons, List.sum_cons,
        Bool.true_eq_false, Bool.false_eq_true, ite_true, ite_false] <;>
      rw [← ih] <;> abel

theorem sum_over_fibers {M : Type} [AddCommMonoid M] (f : Record → M) :
    ∀ (cs : List String) (l : List Record), cs.Nodup →
      (∀ r ∈ l, r.category ∈ cs) →
      (cs.map (fun c =>
        ((l.filter (fun r => r.category = c)).map f).sum)).sum =
        (l.map f).sum := by
  intro cs
  induction cs with
  | nil =>
    intro l _ hcov
    have : l = [] := by
      cases l with
      | nil => rfl
      | cons r rest => exact absurd (hcov r (List.mem_cons_self r rest)) (by simp)
    simp [this]
  | cons c cs' ih =>
    intro l hnd hcov
    have hnd' : cs'.Nodup := (List.nodup_cons.mp hnd).2
    have hcmem : c ∉ cs' := (List.nodup_cons.mp hnd).1
    simp only [List.map_cons, List.sum_cons]
    have hsplit := sum_map_filter_add_not f (fun r => r.category = c) l
    have hrest :
        (cs'.map (fun c' =>
          ((l.filter (fun r => r.category = c')).map f).sum)).sum =
          (((l.filter (fun r => !(decide (r.category = c)))).map f).sum) := by
      have heq : ∀ c' ∈ cs',
          (l.filter (fun r => r.category = c')) =
            ((l.filter (fun r => !(decide (r.category = c)))).filter
              (fun r => r.category = c')) := by
        intro c' hc'
        rw [List.filter_filter]
        refine (List.filter_congr (fun r _ => ?_)).symm
        by_cases h1 : r.category = c'
        · have hcc' : c' ≠ c := fun h => hcmem (h ▸ hc')
          have h2 : r.category ≠ c := fun hrc => hcc' (h1.symm.trans hrc)
          simp [h1, h2, hcc']
        · simp [h1]
      rw [List.map_congr_left (fun c' hc' => by rw [heq c' hc'])]
      exact ih (l.filter (fun r => !(decide (r.category = c)))) hnd'
        (fun r hr => by
          have hrl := (List.filter_sublist l).subset hr
          have hcat := hcov r hrl
          have hne : ¬ (r.category = c) := by
            have := (List.mem_filter.mp hr).2
            simpa using this
          rcases List.mem_cons.mp hcat with h | h
          · exact absurd h hne
          · exact h)
    rw [hrest, hsplit]

theorem map_one_sum (g : List Record) :
    (g.map (fun _ => (1 : ℕ))).sum = g.length := by
  induction g with
  | nil => rfl
  | cons r rest ih => simp [ih, Nat.add_comm]

theorem salesVals_sum_eq (g : List Record) :
    (salesVals g).sum = (g.map (fun r => r.sales.getD 0)).sum := by
  induction g with
  | nil => rfl
  | cons r rest ih =>
    cases hs : r.sales with
    | none => simpa [salesVals, List.filterMap_cons, hs] using ih
    | some v => simpa [salesVals, List.filterMap_cons, hs] using ih

/-- C6. For every record set, the per-category summary satisfies the two
aggregation identities: the group counts sum to the size of the set, and the
group sales totals sum to the sum of the non-missing sales of the set. -/
theorem summary_aggregation_totals (l : List Record) :
    ((summary l).map SummaryRow.locations).sum = l.length ∧
    ((summary l).map SummaryRow.totalSales).sum = (salesVals l).sum := by
  have hnd : (firstOccurrences (l.map Record.category)).Nodup :=
    firstOccurrences_nodup _
  have hcov : ∀ r ∈ l, r.category ∈ firstOccurrences (l.map Record.category) :=
    fun r hr => mem_firstOccurrences.mpr (List.mem_map_of_mem Record.category hr)
  constructor
  · have h1 := sum_over_fibers (fun _ => (1 : ℕ))
      (firstOccurrences (l.map Record.category)) l hnd hcov
    rw [map_one_sum] at h1
    rw [← h1, summary, List.map_map]
    refine congrArg List.sum (List.map_congr_left (fun c _ => ?_))
    simp [map_one_sum]
  · have h2 := sum_over_fibers (fun r => r.sales.getD 0)
      (firstOccurrences (l.map Record.category)) l hnd hcov
    rw [← salesVals_sum_eq] at h2
    rw [← h2, summary, List.map_map]
    refine congrArg List.sum (List.map_congr_left (fun c _ => ?_))
    simp [salesVals_sum_eq]

/-! ### C5 — deterministic fallback color assignment -/

theorem lookup_append_left {m m2 : List (String × String)} {c v : String}
    (h : m.lookup c = some v) : (m ++ m2).lookup c = some v := by
  induction m with
  | nil => simp [List.lookup] at h
  | cons e rest ih =>
    rw [List.cons_append]
    cases he : c == e.1 with
    | true =>
      simp only [List.lookup, he] at h ⊢
      exact h
    | false =>
      simp only [List.lookup, he] at h ⊢
      exact ih h

theorem lookup_append_right {m m2 : List (String × String)} {c : String}
    (h : m.lookup c = none) : (m ++ m2).lookup c = m2.lookup c := by
  induction m with
  | nil => simp
  | cons e rest ih =>
    rw [List.cons_append]
    cases he : c == e.1 with
    | true => simp [List.lookup, he] at h
    | false =>
      simp only [List.lookup, he] at h ⊢
      exact ih h

theorem lookup_append_single_ne {m : List (String × String)} {c d v : String}
    (h : c ≠ d) : (m ++ [(d, v)]).lookup c = m.lookup c := by
  induction m with
  | nil =>
    have hcd : (c == d) = false := beq_eq_false_iff_ne.mpr h
    simp [List.lookup, hcd]
  | cons e rest ih =>
    rw [List.cons_append]
    cases he : c == e.1 with
    | true => simp [List.lookup, he]
    | false =>
      simp only [List.lookup, he]
      exact ih

theorem assignColors_preserves :
    ∀ (cs : List String) (m : List (String × String)) (k : ℕ) (c v : String),
      m.lookup c = some v → (assignColors m k cs).lookup c = some v := by
  intro cs
  induction cs with
  | nil => intro m k c v h; exact h
  | cons d cs' ih =>
    intro m k c v h
    rw [assignColors]
    split
    · exact ih m k c v h
    · exact ih _ (k + 1) c v (lookup_append_left h)

theorem assignColors_unseen_rank :
    ∀ (cs : List String) (m : List (String × String)) (k0 k : ℕ) (c : String),
      cs.Nodup →
      (cs.filter (fun d => (m.lookup d).isNone)).get? k = some c →
      (assignColors m k0 cs).lookup c = some (cycleColor (k0 + k)) := by
  intro cs
  induction cs with
  | nil =>
    intro m k0 k c _ hget
    simp [List.filter_nil] at hget
  | cons d cs' ih =>
    intro m k0 k c hnd hget
    have hnd' : cs'.Nodup := (List.nodup_cons.mp hnd).2
    have hdnot : d ∉ cs' := (List.nodup_cons.mp hnd).1
    rw [List.filter_cons] at hget
    rw [assignColors]
    cases hd : m.lookup d with
    | some v =>
      rw [if_pos (by simp [hd])]
      rw [if_neg (by simp [hd])] at hget
      exact ih m k0 k c hnd' hget
    | none =>
      rw [if_neg (by simp [hd])]
      rw [if_pos (by simp [hd])] at hget
      cases k with
      | zero =>
        have hc : c = d := by
          simpa [List.get?] using hget.symm
        have hm' : ((m ++ [(d, cycleColor k0)]).lookup c) =
            some (cycleColor k0) := by
          rw [hc, lookup_append_right hd]
          simp [List.lookup]
        simpa using assignColors_preserves cs' _ (k0 + 1) c _ hm'
      | succ k' =>
        have hget' :
            (cs'.filter (fun d' =>
              ((m ++ [(d, cycleColor k0)]).lookup d').isNone)).get? k' =
              some c := by
          have hfeq :
              cs'.filter (fun d' => (m.lookup d').isNone) =
                cs'.filter (fun d' =>
                  ((m ++ [(d, cycleColor k0)]).lookup d').isNone) :=
            List.filter_congr (fun x hx => by
              rw [lookup_append_single_ne
                (fun hxd => hdnot (by rw [← hxd]; exact hx))])
          rw [← hfeq]
          simpa [List.get?] using hget
        rw [show k0 + (k' + 1) = (k0 + 1) + k' from by omega]
        exact ih _ (k0 + 1) k' c hnd' hget'

/-- C5. Fallback color assignment is deterministic: for every record set, the
category at (0-based) rank `k` among the unseen categories — those outside
the fixed five-category map, ordered by first encounter in the current set —
receives the `k`-th color of the fallback palette, cycling round-robin. -/
theorem fallback_colors_by_first_encounter_rank
    (l : List Record) (k : ℕ) (c : String)
    (h : ((firstOccurrences (l.map Record.category)).filter
      (fun d => (fixedCategoryColors.lookup d).isNone)).get? k = some c) :
    (categoryColorMap l).lookup c = some (cycleColor k) := by
  have := assignColors_unseen_rank (firstOccurrences (l.map Record.category))
    fixedCategoryColors 0 k c (firstOccurrences_nodup _) h
  simpa using this

/-- Concrete instance of C5 (the spec's scenario): with "Bakery" the first
unseen category and "Cafe" the second in one pass, they receive the first and
second fallback palette colors. -/
theorem fallback_colors_witness :
    (categoryColorMap [exBakery, exCafe]).lookup "Bakery" = some "cadetblue" ∧
    (categoryColorMap [exBakery, exCafe]).lookup "Cafe" = some "pink" :=
  ⟨fallback_colors_by_first_encounter_rank [exBakery, exCafe] 0 "Bakery" rfl,
   fallback_colors_by_first_encounter_rank [exBakery, exCafe] 1 "Cafe" rfl⟩
